import Mathlib

/-!
Shallow embedding of the sentiment scoring engine of
`src/src/sentiment_analyzer.py` (class `SentimentAnalyzer`).

Modelling conventions:
  - Python floats are modelled as exact rationals (`ℚ`); decimal literals of
    the source such as `0.7` are written `mkRat 7 10`.
  - Python dicts keyed by the six emotion names are modelled as functions
    `Emotion → ℚ` when all six keys are present (which the scorers guarantee),
    and as association lists `List (Emotion × ℚ)` where key presence itself is
    observable (the `emocoes_detectadas` field of the result).
  - The external collaborators (TextBlob polarity/subjectivity, nltk word and
    sentence tokenizers) are parameters of the pipeline, gathered in
    `TextOracle`.
  - Character predicates are modelled on ASCII (Lean's `Char.isAlphanum`,
    `Char.isWhitespace`); the source's regexes use Python's unicode classes,
    which agree on ASCII.
-/

namespace MusicMood

/-- The six emotion tags, the keys of `self.emotion_keywords` built in
`_load_emotion_keywords`, in dict insertion order. -/
inductive Emotion where
  | tristeza
  | raiva
  | felicidade
  | medo
  | esperanca
  | nostalgia
deriving DecidableEq

/-- Dict insertion order of `self.emotion_keywords` (Python 3.7+ dicts preserve
insertion order, which is the iteration order of every loop over the dict). -/
def allEmotions : List Emotion :=
  [.tristeza, .raiva, .felicidade, .medo, .esperanca, .nostalgia]

/-- Position of a tag in the dict insertion order. -/
def enumIdx : Emotion → ℕ
  | .tristeza => 0
  | .raiva => 1
  | .felicidade => 2
  | .medo => 3
  | .esperanca => 4
  | .nostalgia => 5

/-- The keyword lists of `self.emotion_keywords`, verbatim from
`_load_emotion_keywords` (lines 35-72). -/
def emotion_keywords : Emotion → List String
  | .tristeza =>
      ["sad", "cry", "tears", "pain", "hurt", "broken", "lonely", "empty",
       "depression", "sorrow", "grief", "melancholy", "despair", "hopeless",
       "triste", "chorar", "lágrimas", "dor", "machucado", "quebrado",
       "sozinho", "vazio", "depressão", "tristeza", "desespero", "sem esperança"]
  | .raiva =>
      ["angry", "rage", "hate", "mad", "furious", "pissed", "annoyed",
       "frustrated", "irritated", "violence", "fight", "war", "destroy",
       "raiva", "ódio", "bravo", "furioso", "irritado", "frustrado",
       "violência", "luta", "guerra", "destruir"]
  | .felicidade =>
      ["happy", "joy", "smile", "laugh", "love", "amazing", "wonderful",
       "beautiful", "perfect", "great", "awesome", "fantastic", "celebration",
       "feliz", "alegria", "sorriso", "rir", "amor", "incrível", "maravilhoso",
       "lindo", "perfeito", "ótimo", "fantástico", "celebração"]
  | .medo =>
      ["fear", "scared", "afraid", "terror", "panic", "anxiety", "worried",
       "nervous", "frightened", "paranoid", "insecure", "vulnerable",
       "medo", "assustado", "com medo", "terror", "pânico", "ansiedade",
       "preocupado", "nervoso", "amedrontado", "paranoico", "inseguro"]
  | .esperanca =>
      ["hope", "dream", "future", "believe", "faith", "trust", "optimistic",
       "positive", "bright", "light", "tomorrow", "better", "heal",
       "esperança", "sonho", "futuro", "acreditar", "fé", "confiança",
       "otimista", "positivo", "brilhante", "luz", "amanhã", "melhor", "curar"]
  | .nostalgia =>
      ["remember", "memory", "past", "yesterday", "childhood", "old",
       "miss", "used to", "before", "back then", "nostalgia", "reminisce",
       "lembrar", "memória", "passado", "ontem", "infância", "velho",
       "saudade", "costumava", "antes", "naquela época", "nostalgia"]

/-- The intensifier table `self.intensifiers` (lines 75-80); decimal values
written as exact rationals. -/
def intensifiers : List (String × ℚ) :=
  [("muito", mkRat 15 10), ("extremely", mkRat 18 10), ("really", mkRat 13 10),
   ("so", mkRat 12 10), ("very", mkRat 14 10), ("totally", mkRat 16 10),
   ("completely", mkRat 17 10), ("absolutely", mkRat 18 10),
   ("incredibly", mkRat 16 10), ("bastante", mkRat 13 10),
   ("extremamente", mkRat 18 10), ("realmente", mkRat 13 10),
   ("totalmente", mkRat 16 10), ("completamente", mkRat 17 10),
   ("absolutamente", mkRat 18 10), ("incrivelmente", mkRat 16 10)]

/-- Dict lookup `self.intensifiers[w]` guarded by `w in self.intensifiers`. -/
def intensifierLookup (w : String) : Option ℚ :=
  match intensifiers.find? (fun p => p.1 == w) with
  | some p => some p.2
  | none => none

/-- Python substring containment `p in l` on character lists. -/
def occursIn (p l : List Char) : Bool :=
  match l with
  | [] => p.isEmpty
  | _ :: t => p.isPrefixOf l || occursIn p t

/-- The condition `keyword in word or word in keyword` of line 150. -/
def substringRel (keyword word : String) : Bool :=
  occursIn keyword.data word.data || occursIn word.data keyword.data

/-- The `intensity_multiplier` computed at lines 140-142 for a token whose
immediately preceding token is `prev` (`none` at position 0). -/
def tokenMultiplier (prev : Option String) : ℚ :=
  match prev with
  | none => 1
  | some w =>
    match intensifierLookup w with
    | some m => m
    | none => 1

/-- Number of keywords of emotion `e` standing in the substring relation with
`word` (how many times line 151 fires for this token and emotion). -/
def substrCount (word : String) (e : Emotion) : ℕ :=
  ((emotion_keywords e).filter fun k => substringRel k word).length

/-- Total amount added to `emotion_scores[e]` by one token `word` under
multiplier `mult`: lines 144-151 (`+ intensity_multiplier` on exact membership,
plus `+ 0.5 * intensity_multiplier` once per substring-related keyword). -/
def tokenScore (mult : ℚ) (word : String) (e : Emotion) : ℚ :=
  (if (emotion_keywords e).contains word then mult else 0)
    + (substrCount word e : ℚ) * (mkRat 1 2 * mult)

/-- The accumulation loop of lines 138-151, carrying the previous token. -/
def keywordAccumAux (prev : Option String) (e : Emotion) : List String → ℚ
  | [] => 0
  | w :: ws => tokenScore (tokenMultiplier prev) w e + keywordAccumAux (some w) e ws

/-- Pre-normalization accumulator `emotion_scores[e]` after the token loop. -/
def keywordAccum (tokens : List String) (e : Emotion) : ℚ :=
  keywordAccumAux none e tokens

/-- The Keyword Scorer `_analyze_emotion_keywords` (lines 133-159) as a function
of the token list produced by the external `nltk.word_tokenize`. -/
def analyzeEmotionKeywords (tokens : List String) (e : Emotion) : ℚ :=
  if 0 < tokens.length then
    keywordAccum tokens e / (tokens.length : ℚ) * 100
  else
    keywordAccum tokens e

/-- Contribution of one sentence with polarity `p` to `context_scores[e]`:
the polarity bucketing of lines 171-178. -/
def contextBucket (p : ℚ) (e : Emotion) : ℚ :=
  if p < -mkRat 3 10 then
    match e with
    | .tristeza => |p|
    | .raiva => |p| * mkRat 5 10
    | _ => 0
  else if mkRat 3 10 < p then
    match e with
    | .felicidade => p
    | .esperanca => p * mkRat 7 10
    | _ => 0
  else
    match e with
    | .nostalgia => mkRat 1 10
    | _ => 0

/-- The Context Scorer `_analyze_context` (lines 161-180) as a function of the
per-sentence polarities returned by the external primitive on the sentences
produced by `nltk.sent_tokenize`. -/
def analyzeContext (polarities : List ℚ) (e : Emotion) : ℚ :=
  (polarities.map fun p => contextBucket p e).sum

/-- The blend and global-polarity adjustment of `_combine_analyses`
(lines 186-199): `combined[e] = keyword[e]*0.7 + context[e]*0.3`, then the
polarity boosts. -/
def combinedScores (polarity : ℚ) (ks cs : Emotion → ℚ) (e : Emotion) : ℚ :=
  let base := ks e * mkRat 7 10 + cs e * mkRat 3 10
  if polarity < -mkRat 2 10 then
    match e with
    | .tristeza => base * mkRat 13 10
    | .raiva => base * mkRat 12 10
    | _ => base
  else if mkRat 2 10 < polarity then
    match e with
    | .felicidade => base * mkRat 13 10
    | .esperanca => base * mkRat 12 10
    | _ => base
  else
    base

/-- One step of Python's stable sort, descending on the score component:
an element is inserted after every element of strictly greater or equal score
that preceded it, and before any strictly smaller one. -/
def insertDesc (p : Emotion × ℚ) : List (Emotion × ℚ) → List (Emotion × ℚ)
  | [] => [p]
  | q :: qs => if p.2 < q.2 then q :: insertDesc p qs else p :: q :: qs

/-- Stable insertion sort, descending on scores: the embedding of
`sorted(combined_scores.items(), key=lambda x: x[1], reverse=True)` (line 202;
Python's sort is stable, so ties keep dict insertion order). -/
def sortDesc : List (Emotion × ℚ) → List (Emotion × ℚ)
  | [] => []
  | p :: ps => insertDesc p (sortDesc ps)

/-- The ranked list `sorted_emotions` of line 202; `combined_scores.items()`
lists the six tags in dict insertion order. -/
def sortedEmotions (combined : Emotion → ℚ) : List (Emotion × ℚ) :=
  sortDesc (allEmotions.map fun e => (e, combined e))

/-- Keyword extraction `_extract_keywords` (lines 223-233); `primary = none`
models the string `'neutro'`, which is not a key of `emotion_keywords`. -/
def extractKeywords (primary secondary : Option Emotion) : List String :=
  (match primary with
   | some e => (emotion_keywords e).take 5
   | none => []) ++
  (match secondary with
   | some e => (emotion_keywords e).take 3
   | none => [])

/-- Result record of `_combine_analyses`. -/
structure CombineResult where
  primary : Option Emotion
  secondary : Option Emotion
  score : ℚ
  keywords : List String
deriving DecidableEq

/-- The Combiner `_combine_analyses` (lines 182-221). `primary = none` models
`'neutro'`; `secondary = none` models Python `None`. -/
def combineAnalyses (polarity : ℚ) (ks cs : Emotion → ℚ) : CombineResult :=
  let sorted := sortedEmotions (combinedScores polarity ks cs)
  let top := sorted.headD (Emotion.tristeza, 0)
  let primary : Option Emotion :=
    if mkRat 1 10 < top.2 then some top.1 else none
  let secondary : Option Emotion :=
    match sorted.get? 1 with
    | some p => if mkRat 5 100 < p.2 then some p.1 else none
    | none => none
  let finalScore := top.2
  { primary := primary
    secondary := secondary
    score := min finalScore 1
    keywords := extractKeywords primary secondary }

/-- Python `max(emotion_scores.values())` over the six values, in dict order
(the dict always holds all six tags when `_calculate_confidence` runs). -/
def maxScore (ks : Emotion → ℚ) : ℚ :=
  match allEmotions.map ks with
  | [] => 0
  | v :: vs => vs.foldl max v

/-- The Confidence Estimator `_calculate_confidence` (lines 235-247). -/
def calculateConfidence (subjectivity : ℚ) (ks : Emotion → ℚ) (textLength : ℕ) : ℚ :=
  let emotionStrength := maxScore ks
  let lengthFactor := min ((textLength : ℚ) / 500) 1
  min (subjectivity * mkRat 4 10 + emotionStrength * mkRat 4 10
        + lengthFactor * mkRat 2 10) 1

/-- Characters kept by the first regex of `_preprocess_text` (line 126):
word characters, whitespace, and the punctuation class literally listed in
`[^\w\s.,!?;:-]` (ASCII reading of the unicode classes). -/
def keepChar (c : Char) : Bool :=
  c.isAlphanum || c = '_' || c.isWhitespace
    || c ∈ ['.', ',', '!', '?', ';', ':', '-']

/-- First normalizer step: `re.sub(r'[^\w\s.,!?;:-]', ' ', text)`. -/
def filterChars (l : List Char) : List Char :=
  l.map fun c => if keepChar c then c else ' '

/-- Worker for the whitespace collapse, carrying whether the previous input
character was whitespace (in which case the current run already emitted its
single space). -/
def collapseWsAux : Bool → List Char → List Char
  | _, [] => []
  | prevWs, c :: cs =>
    if c.isWhitespace then
      (if prevWs then [] else [' ']) ++ collapseWsAux true cs
    else
      c :: collapseWsAux false cs

/-- Second normalizer step: `re.sub(r'\s+', ' ', text)` — every maximal run of
whitespace becomes one space. -/
def collapseWs (l : List Char) : List Char :=
  collapseWsAux false l

/-- Python `str.strip()`: remove leading and trailing whitespace. -/
def pyStrip (l : List Char) : List Char :=
  ((l.dropWhile Char.isWhitespace).reverse.dropWhile Char.isWhitespace).reverse

/-- Python `str.strip()` on strings. -/
def pyStripStr (s : String) : String :=
  ⟨pyStrip s.data⟩

/-- Worker for splitting on newline characters. -/
def splitNlAux : List Char → List Char → List (List Char)
  | [], acc => [acc.reverse]
  | c :: cs, acc =>
    if c = '\n' then acc.reverse :: splitNlAux cs [] else splitNlAux cs (c :: acc)

/-- Python `text.split('\n')`. -/
def splitNl (l : List Char) : List (List Char) :=
  splitNlAux l []

/-- Python `' '.join(lines)`. -/
def joinSpace : List (List Char) → List Char
  | [] => []
  | [l] => l
  | l :: ls => l ++ ' ' :: joinSpace ls

/-- The Text Normalizer `_preprocess_text` (lines 123-131): character filter,
whitespace collapse, split on newlines keeping stripped lines longer than 3,
join with spaces, strip, lowercase. -/
def preprocess (s : String) : String :=
  let t1 := filterChars s.data
  let t2 := collapseWs t1
  let lines := ((splitNl t2).map pyStrip).filter fun ln => 3 < ln.length
  ⟨(pyStrip (joinSpace lines)).map Char.toLower⟩

/-- The external collaborators of the pipeline: the TextBlob
polarity/subjectivity primitive and the two nltk tokenizers, each a fixed
function of its input text. -/
structure TextOracle where
  polarity : String → ℚ
  subjectivity : String → ℚ
  wordTokenize : String → List String
  sentTokenize : String → List String

/-- The result dict of `analyze_sentiment`; `emocoes_detectadas` is an
association list in dict insertion order so that key presence is observable
(the short-circuit branch returns the empty dict `\x7b\x7d`). -/
structure SentimentResult where
  sentimento_primario : Option Emotion
  sentimento_secundario : Option Emotion
  pontuacao_sentimento : ℚ
  palavras_chave : List String
  confianca : ℚ
  emocoes_detectadas : List (Emotion × ℚ)
deriving DecidableEq

/-- The fixed result of the short-circuit branch of `analyze_sentiment`
(lines 85-92); note the empty `emocoes_detectadas` dict. -/
def neutralResult : SentimentResult :=
  { sentimento_primario := none
    sentimento_secundario := none
    pontuacao_sentimento := 0
    palavras_chave := []
    confianca := 0
    emocoes_detectadas := [] }

/-- The pipeline entry point `analyze_sentiment` (lines 82-121), parameterized
by the external primitives. -/
def analyzeSentiment (o : TextOracle) (lyrics : String) : SentimentResult :=
  if lyrics.data = [] ∨ (pyStripStr lyrics).length < 10 then
    neutralResult
  else
    let cleaned := preprocess lyrics
    let polarity := o.polarity cleaned
    let subjectivity := o.subjectivity cleaned
    let emotionScores : Emotion → ℚ :=
      analyzeEmotionKeywords (o.wordTokenize cleaned)
    let contextScore : Emotion → ℚ :=
      analyzeContext ((o.sentTokenize cleaned).map o.polarity)
    let fin := combineAnalyses polarity emotionScores contextScore
    let confidence := calculateConfidence subjectivity emotionScores cleaned.length
    { sentimento_primario := fin.primary
      sentimento_secundario := fin.secondary
      pontuacao_sentimento := fin.score
      palavras_chave := fin.keywords
      confianca := confidence
      emocoes_detectadas := allEmotions.map fun e => (e, emotionScores e) }

/-- A trivial instantiation of the external primitives, used to exhibit
concrete runs: constant polarity and subjectivity 0, whitespace word
tokenization, whole-text sentence tokenization. -/
def oracle0 : TextOracle :=
  { polarity := fun _ => 0
    subjectivity := fun _ => 0
    wordTokenize := fun s => (s.splitOn " ").filter fun w => ¬ w.isEmpty
    sentTokenize := fun s => [s] }

/-- Comparison definition for the normalizer's observable behaviour: the
pipeline with the line-splitting step removed — filter, collapse, strip,
lowercase — except that when the collapsed and stripped text has length at
most 3 the output is empty. -/
def flatNormalize (s : String) : String :=
  let t := pyStrip (collapseWs (filterChars s.data))
  if t.length ≤ 3 then "" else ⟨t.map Char.toLower⟩

/-- Keyword-score vector giving 0.1 to the first two tags: a combined top
score of 0.07 stays below the 0.1 primary threshold while the second-ranked
0.07 clears the 0.05 secondary threshold. -/
def ksLow : Emotion → ℚ := fun e =>
  match e with
  | .tristeza => mkRat 1 10
  | .raiva => mkRat 1 10
  | _ => 0

/-- Keyword-score vector giving 1 to the first two tags, so that both primary
and secondary emotions are present after combination. -/
def ksTop : Emotion → ℚ := fun e =>
  match e with
  | .tristeza => 1
  | .raiva => 1
  | _ => 0

/-- The all-zero context vector. -/
def csZero : Emotion → ℚ := fun _ => 0

/-- Strict ranking relation realized by the Combiner's sort: greater combined
score first, ties resolved by the lexicon's tag enumeration order. -/
def rankedBefore (p q : Emotion × ℚ) : Prop :=
  q.2 < p.2 ∨ (p.2 = q.2 ∧ enumIdx p.1 < enumIdx q.1)

theorem insertDesc_perm (p : Emotion × ℚ) (l : List (Emotion × ℚ)) :
    (insertDesc p l).Perm (p :: l) := by
  induction l with
  | nil => simp [insertDesc]
  | cons q qs ih =>
    by_cases h : p.2 < q.2
    · simp only [insertDesc, if_pos h]
      exact (List.Perm.cons q ih).trans (List.Perm.swap p q qs)
    · simp [insertDesc, if_neg h]

theorem sortDesc_perm (l : List (Emotion × ℚ)) : (sortDesc l).Perm l := by
  induction l with
  | nil => simp [sortDesc]
  | cons q qs ih =>
    exact (insertDesc_perm q (sortDesc qs)).trans (List.Perm.cons q ih)

theorem insertDesc_pairwise (p : Emotion × ℚ) (l : List (Emotion × ℚ))
    (hl : l.Pairwise rankedBefore)
    (hS : ∀ q ∈ l, enumIdx p.1 < enumIdx q.1) :
    (insertDesc p l).Pairwise rankedBefore := by
  induction l with
  | nil => simp [insertDesc]
  | cons q qs ih =>
    rcases List.pairwise_cons.mp hl with ⟨hq, hqs⟩
    by_cases h : p.2 < q.2
    · simp only [insertDesc, if_pos h]
      refine List.pairwise_cons.mpr ⟨?_, ih hqs fun r hr => hS r (List.mem_cons_of_mem q hr)⟩
      intro x hx
      rcases List.mem_cons.mp ((insertDesc_perm p qs).mem_iff.mp hx) with rfl | hx'
      · exact Or.inl h
      · exact hq x hx'
    · simp only [insertDesc, if_neg h]
      have hqp : q.2 ≤ p.2 := not_lt.mp h
      refine List.pairwise_cons.mpr ⟨?_, hl⟩
      intro x hx
      rcases List.mem_cons.mp hx with rfl | hx'
      · rcases eq_or_lt_of_le hqp with heq | hlt
        · exact Or.inr ⟨heq.symm, hS x (List.mem_cons_self ..)⟩
        · exact Or.inl hlt
      · rcases hq x hx' with hlt | ⟨heq, _⟩
        · exact Or.inl (lt_of_lt_of_le hlt hqp)
        · rcases eq_or_lt_of_le hqp with heq2 | hlt2
          · exact Or.inr ⟨(heq2.symm.trans heq).symm ▸ rfl, hS x (List.mem_cons_of_mem q hx')⟩
          · exact Or.inl (heq ▸ hlt2)

theorem sortDesc_pairwise (l : List (Emotion × ℚ))
    (hl : l.Pairwise fun a b => enumIdx a.1 < enumIdx b.1) :
    (sortDesc l).Pairwise rankedBefore := by
  induction l with
  | nil => simp [sortDesc]
  | cons q qs ih =>
    rcases List.pairwise_cons.mp hl with ⟨hq, hqs⟩
    exact insertDesc_pairwise q (sortDesc qs) (ih hqs)
      fun r hr => hq r ((sortDesc_perm qs).subset hr)

theorem sortedEmotions_perm (c : Emotion → ℚ) :
    (sortedEmotions c).Perm (allEmotions.map fun e => (e, c e)) :=
  sortDesc_perm _

theorem sortedEmotions_length (c : Emotion → ℚ) :
    (sortedEmotions c).length = 6 := by
  rw [(sortedEmotions_perm c).length_eq]
  simp [allEmotions]

theorem sortedEmotions_shape (c : Emotion → ℚ) :
    ∃ x y t, sortedEmotions c = x :: y :: t := by
  rcases hs : sortedEmotions c with _ | ⟨x, _ | ⟨y, t⟩⟩
  · have := sortedEmotions_length c
    rw [hs] at this
    simp at this
  · have := sortedEmotions_length c
    rw [hs] at this
    simp at this
  · exact ⟨x, y, t, rfl⟩

theorem intensifierLookup_one_le (w : String) (m : ℚ)
    (h : intensifierLookup w = some m) : 1 ≤ m := by
  unfold intensifierLookup at h
  rcases hf : intensifiers.find? (fun p => p.1 == w) with _ | q
  · rw [hf] at h
    cases h
  · rw [hf] at h
    cases h
    have hq := List.mem_of_find?_eq_some hf
    have hall : ∀ r ∈ intensifiers, 1 ≤ r.2 := by decide
    exact hall q hq

theorem one_le_tokenMultiplier (prev : Option String) :
    1 ≤ tokenMultiplier prev := by
  match prev with
  | none => simp [tokenMultiplier]
  | some w =>
    rcases h : intensifierLookup w with _ | m
    · simp [tokenMultiplier, h]
    · simpa [tokenMultiplier, h] using intensifierLookup_one_le w m h

theorem tokenScore_nonneg (mult : ℚ) (word : String) (e : Emotion)
    (hm : 0 ≤ mult) : 0 ≤ tokenScore mult word e := by
  unfold tokenScore
  have h2 : (0:ℚ) ≤ (substrCount word e : ℚ) * (mkRat 1 2 * mult) := by
    refine mul_nonneg (Nat.cast_nonneg _) (mul_nonneg ?_ hm)
    rw [Rat.mkRat_eq_div]
    norm_num
  split
  · linarith
  · linarith

theorem tokenScore_mul (mult : ℚ) (word : String) (e : Emotion) :
    tokenScore mult word e = mult * tokenScore 1 word e := by
  unfold tokenScore
  split
  · ring
  · ring

theorem keywordAccumAux_nonneg (prev : Option String) (e : Emotion)
    (ts : List String) : 0 ≤ keywordAccumAux prev e ts := by
  induction ts generalizing prev with
  | nil => simp [keywordAccumAux]
  | cons w ws ih =>
    have h1 : 0 ≤ tokenScore (tokenMultiplier prev) w e :=
      tokenScore_nonneg _ w e (le_trans zero_le_one (one_le_tokenMultiplier prev))
    have h2 := ih (some w)
    simp only [keywordAccumAux]
    linarith

theorem analyzeEmotionKeywords_nonneg (tokens : List String) (e : Emotion) :
    0 ≤ analyzeEmotionKeywords tokens e := by
  unfold analyzeEmotionKeywords
  have h := keywordAccumAux_nonneg none e tokens
  split
  · refine mul_nonneg (div_nonneg h (Nat.cast_nonneg _)) ?_
    norm_num
  · exact h

theorem contextBucket_nonneg (p : ℚ) (e : Emotion) :
    0 ≤ contextBucket p e := by
  have h3 : (0:ℚ) < mkRat 3 10 := by rw [Rat.mkRat_eq_div]; norm_num
  have h5 : (0:ℚ) ≤ mkRat 5 10 := by rw [Rat.mkRat_eq_div]; norm_num
  have h7 : (0:ℚ) ≤ mkRat 7 10 := by rw [Rat.mkRat_eq_div]; norm_num
  have h1 : (0:ℚ) ≤ mkRat 1 10 := by rw [Rat.mkRat_eq_div]; norm_num
  cases e <;>
    simp only [contextBucket] <;>
    split_ifs <;>
    first
      | positivity
      | exact h1
      | norm_num
      | exact mul_nonneg (abs_nonneg p) h5
      | linarith
      | exact mul_nonneg (by linarith) h7

theorem analyzeContext_nonneg (ps : List ℚ) (e : Emotion) :
    0 ≤ analyzeContext ps e := by
  unfold analyzeContext
  refine List.sum_nonneg ?_
  intro x hx
  rcases List.mem_map.mp hx with ⟨p, _, rfl⟩
  exact contextBucket_nonneg p e

theorem combinedScores_nonneg (polarity : ℚ) (ks cs : Emotion → ℚ)
    (hks : ∀ e, 0 ≤ ks e) (hcs : ∀ e, 0 ≤ cs e) (e : Emotion) :
    0 ≤ combinedScores polarity ks cs e := by
  have hbase : 0 ≤ ks e * (7/10) + cs e * (3/10) := by
    have h1 := hks e
    have h2 := hcs e
    nlinarith
  cases e <;>
    simp only [combinedScores, Rat.mkRat_eq_div] <;>
    split_ifs <;>
    first
      | exact hbase
      | exact mul_nonneg hbase (by norm_num)

theorem maxScore_nonneg (ks : Emotion → ℚ) (h : ∀ e, 0 ≤ ks e) :
    0 ≤ maxScore ks := by
  simp only [maxScore, allEmotions, List.map]
  refine le_trans (h .tristeza) ?_
  simp only [List.foldl]
  calc ks Emotion.tristeza
      ≤ max (ks .tristeza) (ks .raiva) := le_max_left _ _
    _ ≤ max (max (ks .tristeza) (ks .raiva)) (ks .felicidade) := le_max_left _ _
    _ ≤ max (max (max (ks .tristeza) (ks .raiva)) (ks .felicidade)) (ks .medo) :=
        le_max_left _ _
    _ ≤ max (max (max (max (ks .tristeza) (ks .raiva)) (ks .felicidade)) (ks .medo))
          (ks .esperanca) := le_max_left _ _
    _ ≤ max (max (max (max (max (ks .tristeza) (ks .raiva)) (ks .felicidade)) (ks .medo))
          (ks .esperanca)) (ks .nostalgia) := le_max_left _ _

theorem sortedEmotions_head_is_score (c : Emotion → ℚ) (d : Emotion × ℚ) :
    ∃ e, (sortedEmotions c).headD d = (e, c e) := by
  rcases sortedEmotions_shape c with ⟨x, y, t, hs⟩
  have hx : x ∈ sortedEmotions c := by
    rw [hs]
    exact List.mem_cons_self ..
  have hx2 := (sortedEmotions_perm c).subset hx
  rcases List.mem_map.mp hx2 with ⟨e, _, he⟩
  exact ⟨e, by rw [hs]; simpa using he.symm⟩

theorem combineAnalyses_score_bounds (polarity : ℚ) (ks cs : Emotion → ℚ)
    (hks : ∀ e, 0 ≤ ks e) (hcs : ∀ e, 0 ≤ cs e) :
    0 ≤ (combineAnalyses polarity ks cs).score ∧
      (combineAnalyses polarity ks cs).score ≤ 1 := by
  have htop : 0 ≤ ((sortedEmotions (combinedScores polarity ks cs)).headD
      (Emotion.tristeza, 0)).2 := by
    rcases sortedEmotions_head_is_score (combinedScores polarity ks cs)
      (Emotion.tristeza, 0) with ⟨e, he⟩
    rw [he]
    exact combinedScores_nonneg polarity ks cs hks hcs e
  constructor
  · exact le_min htop zero_le_one
  · exact min_le_right _ _

theorem keywordAccumAux_append (e : Emotion) (ts : List String)
    (a b : String) (prev : Option String) :
    keywordAccumAux prev e (ts ++ [a, b])
      = keywordAccumAux prev e (ts ++ [a])
        + tokenScore (tokenMultiplier (some a)) b e := by
  induction ts generalizing prev with
  | nil =>
    simp only [List.nil_append, keywordAccumAux]
    ring
  | cons w ws ih =>
    simp only [List.cons_append, keywordAccumAux, List.append_eq, ih]
    ring

theorem collapseWsAux_no_newline (l : List Char) (b : Bool) :
    '\n' ∉ collapseWsAux b l := by
  induction l generalizing b with
  | nil => simp [collapseWsAux]
  | cons c cs ih =>
    by_cases hc : c.isWhitespace
    · simp only [collapseWsAux, if_pos hc]
      intro hmem
      rcases b with _ | _
      · exact ih true (by simpa using hmem)
      · exact ih true (by simpa using hmem)
    · simp only [collapseWsAux, if_neg hc]
      intro hmem
      rcases List.mem_cons.mp hmem with rfl | h
      · exact hc (by decide)
      · exact ih false h

theorem splitNlAux_of_no_newline (l : List Char) (acc : List Char)
    (h : ∀ c ∈ l, c ≠ '\n') : splitNlAux l acc = [acc.reverse ++ l] := by
  induction l generalizing acc with
  | nil => simp [splitNlAux]
  | cons c cs ih =>
    have hc : ¬ c = '\n' := h c (List.mem_cons_self ..)
    simp only [splitNlAux, if_neg hc]
    rw [ih (c :: acc) fun x hx => h x (List.mem_cons_of_mem _ hx)]
    simp

theorem splitNl_collapseWs (l : List Char) :
    splitNl (collapseWs l) = [collapseWs l] := by
  unfold splitNl
  rw [splitNlAux_of_no_newline]
  · simp
  · intro c hc
    intro hceq
    exact collapseWsAux_no_newline l false (hceq ▸ hc)

theorem pyStrip_eq_rdropWhile (l : List Char) :
    pyStrip l = List.rdropWhile Char.isWhitespace (l.dropWhile Char.isWhitespace) := by
  simp [pyStrip, List.rdropWhile]

theorem dropWhile_pyStrip (l : List Char) :
    (pyStrip l).dropWhile Char.isWhitespace = pyStrip l := by
  rw [pyStrip_eq_rdropWhile]
  rcases h : List.rdropWhile Char.isWhitespace (l.dropWhile Char.isWhitespace)
    with _ | ⟨c, cs⟩
  · simp
  · have hpre : (c :: cs) <+: l.dropWhile Char.isWhitespace := by
      rw [← h]
      exact List.rdropWhile_prefix _ _
    rcases hpre with ⟨t, ht⟩
    have hidem := List.dropWhile_idempotent (p := Char.isWhitespace) (l := l)
    rw [← ht] at hidem
    have hc : ¬ c.isWhitespace := by
      intro hcw
      rw [List.cons_append, List.dropWhile_cons, if_pos hcw] at hidem
      have hle := (List.dropWhile_sublist (l := cs ++ t) Char.isWhitespace).length_le
      rw [hidem] at hle
      simp only [List.length_cons] at hle
      omega
    rw [List.dropWhile_cons, if_neg hc]

theorem pyStrip_idem (l : List Char) : pyStrip (pyStrip l) = pyStrip l := by
  have h1 : pyStrip (pyStrip l)
      = List.rdropWhile Char.isWhitespace ((pyStrip l).dropWhile Char.isWhitespace) :=
    pyStrip_eq_rdropWhile _
  rw [h1, dropWhile_pyStrip, pyStrip_eq_rdropWhile, List.rdropWhile_idempotent]

theorem isPrefixOf_self (l : List Char) : l.isPrefixOf l = true := by
  induction l with
  | nil => rfl
  | cons c cs ih => simp [List.isPrefixOf, ih]

theorem substringRel_self (w : String) : substringRel w w = true := by
  unfold substringRel occursIn
  match h : w.data with
  | [] => simp
  | c :: cs =>
    have : (c :: cs).isPrefixOf (c :: cs) = true := isPrefixOf_self _
    simp [this]

theorem one_le_substrCount (word : String) (e : Emotion)
    (h : word ∈ emotion_keywords e) : 1 ≤ substrCount word e := by
  unfold substrCount
  have hmem : word ∈ (emotion_keywords e).filter fun k => substringRel k word :=
    List.mem_filter.mpr ⟨h, substringRel_self word⟩
  exact List.length_pos.mpr (List.ne_nil_of_mem hmem)

theorem calculateConfidence_bounds (subjectivity : ℚ) (ks : Emotion → ℚ)
    (n : ℕ) (hsub : 0 ≤ subjectivity) (hks : ∀ e, 0 ≤ ks e) :
    0 ≤ calculateConfidence subjectivity ks n ∧
      calculateConfidence subjectivity ks n ≤ 1 := by
  have hmax := maxScore_nonneg ks hks
  have hlf : (0:ℚ) ≤ min ((n : ℚ) / 500) 1 := le_min (by positivity) zero_le_one
  have c4 : (0:ℚ) ≤ mkRat 4 10 := by rw [Rat.mkRat_eq_div]; norm_num
  have c2 : (0:ℚ) ≤ mkRat 2 10 := by rw [Rat.mkRat_eq_div]; norm_num
  constructor
  · unfold calculateConfidence
    refine le_min ?_ zero_le_one
    have h1 := mul_nonneg hsub c4
    have h2 := mul_nonneg hmax c4
    have h3 := mul_nonneg hlf c2
    linarith
  · exact min_le_right _ _

/-- Claim C1, as stated, is false on the code: line 207 makes the secondary
emotion depend only on the second-ranked combined score, with no check that a
top tag exists. With keyword scores 0.1 for the first two tags and polarity 0,
the combined scores are 0.07 and 0.07: the primary is neutral (0.07 is not
above 0.1) yet a secondary emotion is still reported (0.07 is above 0.05). -/
theorem c1_counterexample :
    (combineAnalyses 0 ksLow csZero).primary = none ∧
    (combineAnalyses 0 ksLow csZero).secondary = some Emotion.raiva := by
  constructor <;>
    norm_num [combineAnalyses, sortedEmotions, sortDesc, insertDesc, allEmotions,
      combinedScores, ksLow, csZero, Rat.mkRat_eq_div]

/-- Claim C1 amended: in the Combiner the secondary emotion is absent if and
only if the second-ranked combined score is at most 0.05, independently of
whether the primary is neutral. -/
theorem c1_secondary_absence (polarity : ℚ) (ks cs : Emotion → ℚ) :
    (combineAnalyses polarity ks cs).secondary = none ↔
      ((sortedEmotions (combinedScores polarity ks cs)).getD 1 (Emotion.tristeza, 0)).2
        ≤ mkRat 5 100 := by
  rcases sortedEmotions_shape (combinedScores polarity ks cs) with ⟨x, y, t, hs⟩
  simp only [combineAnalyses, hs, List.get?, List.getD, Option.getD_some]
  by_cases h : mkRat 5 100 < y.2
  · simp [h, not_le.mpr h]
  · simp [h, not_lt.mp h]

/-- Claim C2, as stated, is false on the code: the short-circuit branch of
`analyze_sentiment` (lines 85-92) returns an empty `emocoes_detectadas` dict,
not an all-zero six-tag vector; on the empty lyric the emotion dict has no
entries at all. -/
theorem c2_counterexample :
    (analyzeSentiment oracle0 "").emocoes_detectadas = [] ∧
    (analyzeSentiment oracle0 "").emocoes_detectadas
      ≠ allEmotions.map fun e => (e, (0:ℚ)) := by
  constructor <;> decide

/-- Claim C2 amended: for every input whose trimmed length is below 10
characters, `analyze_sentiment` returns the fixed neutral result — neutral
primary, absent secondary, score 0, confidence 0, empty keyword list — with an
empty emotion dict (no tags present), without invoking any scorer (the result
is a constant, independent of the external primitives). -/
theorem c2_short_input (o : TextOracle) (lyrics : String)
    (h : (pyStripStr lyrics).length < 10) :
    analyzeSentiment o lyrics = neutralResult := by
  unfold analyzeSentiment
  rw [if_pos (Or.inr h)]

/-- Witness for C2: a concrete whitespace-padded short lyric. -/
theorem c2_witness :
    (pyStripStr "  hi   ").length < 10 ∧
      analyzeSentiment oracle0 "  hi   " = neutralResult :=
  ⟨by decide, c2_short_input oracle0 "  hi   " (by decide)⟩

/-- Claim C3, as stated, is false on the code: an exact keyword match is not
always worth exactly 1.5 times the multiplier, because the substring branch of
line 149-151 fires once per related keyword of the same emotion. The token
`tristeza` matches the tristeza keyword `tristeza` exactly and is in the
substring relation with both `tristeza` and `triste`, so its contribution is
2.0, not 1.5. -/
theorem c3_counterexample :
    tokenScore 1 "tristeza" Emotion.tristeza = 2 ∧
    keywordAccum ["tristeza"] Emotion.tristeza = 2 ∧
    (2:ℚ) ≠ mkRat 15 10 * 1 := by
  have h1 : "tristeza" ∈ emotion_keywords Emotion.tristeza := by decide
  have h2 : substrCount "tristeza" Emotion.tristeza = 2 := by decide
  refine ⟨?_, ?_, by rw [Rat.mkRat_eq_div]; norm_num⟩
  · norm_num [tokenScore, h1, h2, Rat.mkRat_eq_div]
  · norm_num [keywordAccum, keywordAccumAux, tokenMultiplier, tokenScore,
      h1, h2, Rat.mkRat_eq_div]

/-- Claim C3 amended: for a token exactly equal to a keyword of emotion `e`,
the token's total contribution to that emotion's accumulator is
`mult * (1 + 0.5 * n)` where `n ≥ 1` is the number of keywords of `e` in the
substring relation with the token; the claimed `1.5 * mult` is the special
case `n = 1` (no other related keyword in the same list). -/
theorem c3_exact_match_weight (mult : ℚ) (word : String) (e : Emotion)
    (h : word ∈ emotion_keywords e) :
    tokenScore mult word e
        = mult * (1 + mkRat 1 2 * (substrCount word e : ℚ)) ∧
      1 ≤ substrCount word e := by
  constructor
  · unfold tokenScore
    rw [if_pos (by simp [h])]
    ring
  · exact one_le_substrCount word e h

/-- Witness for C3: the keyword `sad` with the `extremamente` multiplier; for
`sad` the substring count is exactly 1, recovering the 1.5 factor. -/
theorem c3_witness :
    "sad" ∈ emotion_keywords Emotion.tristeza ∧
    tokenScore (mkRat 18 10) "sad" Emotion.tristeza
        = mkRat 18 10 * (1 + mkRat 1 2 * (substrCount "sad" Emotion.tristeza : ℚ)) ∧
    1 ≤ substrCount "sad" Emotion.tristeza :=
  ⟨by decide,
   (c3_exact_match_weight (mkRat 18 10) "sad" Emotion.tristeza (by decide)).1,
   (c3_exact_match_weight (mkRat 18 10) "sad" Emotion.tristeza (by decide)).2⟩

/-- Claim C4: the Combiner ranks the six tags by combined score in descending
order — the ranked list is a permutation of the six scored tags, pairwise
ordered so that an earlier entry has a strictly greater score or an equal
score and an earlier position in the lexicon's fixed tag enumeration order —
and on an all-zero combined vector the ranking is the enumeration order
itself, so the top-ranked tag is sadness (`tristeza`). -/
theorem c4_ranking :
    (∀ c : Emotion → ℚ,
        (sortedEmotions c).Perm (allEmotions.map fun e => (e, c e)) ∧
        (sortedEmotions c).Pairwise rankedBefore) ∧
    (sortedEmotions fun _ => 0) = allEmotions.map fun e => (e, (0:ℚ)) := by
  constructor
  · intro c
    refine ⟨sortedEmotions_perm c, ?_⟩
    apply sortDesc_pairwise
    rw [List.pairwise_map]
    have h : allEmotions.Pairwise fun a b => enumIdx a < enumIdx b := by decide
    simpa using h
  · decide

/-- Claim C5: whenever the external primitive returns polarity in the range
-1 to 1 and subjectivity in the range 0 to 1, the final score and the
confidence of the analysis both lie in the closed interval from 0 to 1. -/
theorem c5_bounds (o : TextOracle) (lyrics : String)
    (hpol : ∀ s, -1 ≤ o.polarity s ∧ o.polarity s ≤ 1)
    (hsub : ∀ s, 0 ≤ o.subjectivity s ∧ o.subjectivity s ≤ 1) :
    (0 ≤ (analyzeSentiment o lyrics).pontuacao_sentimento ∧
      (analyzeSentiment o lyrics).pontuacao_sentimento ≤ 1) ∧
    (0 ≤ (analyzeSentiment o lyrics).confianca ∧
      (analyzeSentiment o lyrics).confianca ≤ 1) := by
  unfold analyzeSentiment
  split
  · constructor <;> constructor <;> norm_num [neutralResult]
  · have hsc := combineAnalyses_score_bounds (o.polarity (preprocess lyrics))
      (analyzeEmotionKeywords (o.wordTokenize (preprocess lyrics)))
      (analyzeContext ((o.sentTokenize (preprocess lyrics)).map o.polarity))
      (analyzeEmotionKeywords_nonneg _)
      (analyzeContext_nonneg _)
    have hcf := calculateConfidence_bounds (o.subjectivity (preprocess lyrics))
      (analyzeEmotionKeywords (o.wordTokenize (preprocess lyrics)))
      (preprocess lyrics).length
      (hsub (preprocess lyrics)).1
      (analyzeEmotionKeywords_nonneg _)
    exact ⟨hsc, hcf⟩

/-- Witness for C5: the trivial oracle on a lyric long enough to take the
scoring path. -/
theorem c5_witness :
    (0 ≤ (analyzeSentiment oracle0 "these lyrics are long enough").pontuacao_sentimento ∧
      (analyzeSentiment oracle0 "these lyrics are long enough").pontuacao_sentimento ≤ 1) ∧
    (0 ≤ (analyzeSentiment oracle0 "these lyrics are long enough").confianca ∧
      (analyzeSentiment oracle0 "these lyrics are long enough").confianca ≤ 1) :=
  c5_bounds oracle0 "these lyrics are long enough"
    (fun _ => ⟨by norm_num [oracle0], by norm_num [oracle0]⟩)
    (fun _ => ⟨by norm_num [oracle0], by norm_num [oracle0]⟩)

/-- Claim C6: every entry of every emotion-score vector produced by the
Keyword Scorer, the Context Scorer, and the Combiner is non-negative, for
every token list, every sentence-polarity list, every overall polarity, and
every one of the six emotion tags. -/
theorem c6_vectors_nonneg :
    (∀ tokens e, 0 ≤ analyzeEmotionKeywords tokens e) ∧
    (∀ ps e, 0 ≤ analyzeContext ps e) ∧
    (∀ polarity tokens ps e,
        0 ≤ combinedScores polarity (analyzeEmotionKeywords tokens)
              (analyzeContext ps) e) :=
  ⟨analyzeEmotionKeywords_nonneg,
   analyzeContext_nonneg,
   fun polarity tokens ps e =>
     combinedScores_nonneg polarity _ _
       (analyzeEmotionKeywords_nonneg tokens) (analyzeContext_nonneg ps) e⟩

/-- Claim C7: the pipeline is deterministic — with the external primitives
fixed functions of their input text, two runs of `analyze_sentiment` on the
same lyric agree on every field of the result. -/
theorem c7_deterministic (o : TextOracle) (s : String)
    (r1 r2 : SentimentResult)
    (h1 : r1 = analyzeSentiment o s) (h2 : r2 = analyzeSentiment o s) :
    r1.sentimento_primario = r2.sentimento_primario ∧
    r1.sentimento_secundario = r2.sentimento_secundario ∧
    r1.pontuacao_sentimento = r2.pontuacao_sentimento ∧
    r1.palavras_chave = r2.palavras_chave ∧
    r1.confianca = r2.confianca ∧
    r1.emocoes_detectadas = r2.emocoes_detectadas := by
  subst h1
  subst h2
  exact ⟨rfl, rfl, rfl, rfl, rfl, rfl⟩

/-- Witness for C7: two runs on the empty lyric. -/
theorem c7_witness :
    (analyzeSentiment oracle0 "").sentimento_primario
        = (analyzeSentiment oracle0 "").sentimento_primario ∧
    (analyzeSentiment oracle0 "").sentimento_secundario
        = (analyzeSentiment oracle0 "").sentimento_secundario ∧
    (analyzeSentiment oracle0 "").pontuacao_sentimento
        = (analyzeSentiment oracle0 "").pontuacao_sentimento ∧
    (analyzeSentiment oracle0 "").palavras_chave
        = (analyzeSentiment oracle0 "").palavras_chave ∧
    (analyzeSentiment oracle0 "").confianca
        = (analyzeSentiment oracle0 "").confianca ∧
    (analyzeSentiment oracle0 "").emocoes_detectadas
        = (analyzeSentiment oracle0 "").emocoes_detectadas :=
  c7_deterministic oracle0 "" _ _ rfl rfl

/-- Claim C8: the multiplier applied to a token is the intensifier table's
value of the immediately preceding token when that token is an intensifier and
1 otherwise; appending a token pair to any token sequence adds a contribution
that depends only on that pair, so only the immediately preceding token counts
and multipliers never compound; every token's contribution factors as the
multiplier times its unintensified contribution; and concretely the
accumulator of "extremely sad" for sadness is exactly 1.8 times that of "sad"
alone. -/
theorem c8_intensifier_multiplier :
    (∀ p ∈ intensifiers, tokenMultiplier (some p.1) = p.2) ∧
    (∀ w, intensifierLookup w = none → tokenMultiplier (some w) = 1) ∧
    (∀ ts a b e, keywordAccum (ts ++ [a, b]) e
        = keywordAccum (ts ++ [a]) e + tokenScore (tokenMultiplier (some a)) b e) ∧
    (∀ prev w e, tokenScore (tokenMultiplier prev) w e
        = tokenMultiplier prev * tokenScore 1 w e) ∧
    keywordAccum ["extremely", "sad"] Emotion.tristeza
      = mkRat 9 5 * keywordAccum ["sad"] Emotion.tristeza := by
  refine ⟨by decide, ?_, ?_, ?_, ?_⟩
  · intro w h
    simp [tokenMultiplier, h]
  · intro ts a b e
    exact keywordAccumAux_append e ts a b none
  · intro prev w e
    exact tokenScore_mul _ w e
  · have h1 : "extremely" ∉ emotion_keywords Emotion.tristeza := by decide
    have h2 : substrCount "extremely" Emotion.tristeza = 0 := by decide
    have h3 : "sad" ∈ emotion_keywords Emotion.tristeza := by decide
    have h4 : substrCount "sad" Emotion.tristeza = 1 := by decide
    have h5 : intensifierLookup "extremely" = some (mkRat 9 5) := by decide
    norm_num [keywordAccum, keywordAccumAux, tokenScore, tokenMultiplier,
      h1, h2, h3, h4, h5, Rat.mkRat_eq_div]

/-- Witness for C8: the table is consulted for `extremely`, and a non-key such
as `sad` leaves the multiplier at 1. -/
theorem c8_witness :
    tokenMultiplier (some "extremely") = mkRat 18 10 ∧
    tokenMultiplier (some "sad") = 1 :=
  ⟨c8_intensifier_multiplier.1 ("extremely", mkRat 18 10) (by decide),
   c8_intensifier_multiplier.2.1 "sad" (by decide)⟩

/-- Claim C9: the Text Normalizer never discards an interior line — by the
time the line-dropping step runs, the whitespace collapse has already replaced
every line break with a single space, so the split produces a single line, and
the normalizer's observable behaviour is: texts whose collapsed and stripped
form has length at most 3 normalize to the empty string, and all others to the
lowercased collapsed-and-stripped text. -/
theorem c9_no_line_drop (s : String) : preprocess s = flatNormalize s := by
  simp only [preprocess, flatNormalize, splitNl_collapseWs]
  by_cases h : 3 < (pyStrip (collapseWs (filterChars s.data))).length
  · simp only [List.map_cons, List.map_nil, List.filter_cons, decide_eq_true h,
      if_true, List.filter_nil, joinSpace, pyStrip_idem]
    rw [if_neg (not_le.mpr h)]
  · simp only [List.map_cons, List.map_nil, List.filter_cons, decide_eq_false h,
      if_false, List.filter_nil, joinSpace]
    rw [if_pos (not_lt.mp h)]
    rfl

/-- Claim C10: whenever both a non-neutral primary emotion and a secondary
emotion are present in the Combiner's result, they are distinct tags — the
ranked list is a permutation of the six distinct tags, so its first and second
entries carry different tags. -/
theorem c10_primary_secondary_distinct (polarity : ℚ) (ks cs : Emotion → ℚ)
    (p s : Emotion)
    (hp : (combineAnalyses polarity ks cs).primary = some p)
    (hs2 : (combineAnalyses polarity ks cs).secondary = some s) :
    p ≠ s := by
  rcases sortedEmotions_shape (combinedScores polarity ks cs) with ⟨x, y, t, hsort⟩
  have hnd : ((sortedEmotions (combinedScores polarity ks cs)).map Prod.fst).Nodup := by
    have hperm := (sortedEmotions_perm (combinedScores polarity ks cs)).map Prod.fst
    refine hperm.nodup_iff.mpr ?_
    have hall : allEmotions.Nodup := by decide
    simpa [List.map_map, Function.comp] using hall
  rw [hsort] at hnd
  simp only [List.map_cons, List.nodup_cons, List.mem_cons, not_or] at hnd
  have hxy : x.1 ≠ y.1 := hnd.1.1
  simp only [combineAnalyses, hsort, List.headD_cons, List.get?] at hp hs2
  by_cases h1 : mkRat 1 10 < x.2
  · by_cases h2 : mkRat 5 100 < y.2
    · rw [if_pos h1] at hp
      rw [if_pos h2] at hs2
      cases hp
      cases hs2
      exact hxy
    · rw [if_neg h2] at hs2
      cases hs2
  · rw [if_neg h1] at hp
    cases hp

/-- Witness for C10: keyword scores 1 for the first two tags give primary
sadness and secondary anger, which are distinct. -/
theorem c10_witness : Emotion.tristeza ≠ Emotion.raiva :=
  c10_primary_secondary_distinct 0 ksTop csZero Emotion.tristeza Emotion.raiva
    (by norm_num [combineAnalyses, sortedEmotions, sortDesc, insertDesc,
        allEmotions, combinedScores, ksTop, csZero, Rat.mkRat_eq_div])
    (by norm_num [combineAnalyses, sortedEmotions, sortDesc, insertDesc,
        allEmotions, combinedScores, ksTop, csZero, Rat.mkRat_eq_div])

end MusicMood
